import Mathlib

/-!
Verification development for a multi-tenant time-and-attendance HTTP server.

The server keeps four tables (companies, users, employees, time_entries) and
exposes, among others: QR-scan driven check-in/check-out with a 5-second
cooldown (`scan_qr`), self-service company registration (`register_company`),
owner-driven company creation (`create_company`), cascading company deletion
(`delete_company`) and admin employee deletion (`delete_employee`).

The embedding below models the database as in-memory lists of rows (SQL
`SELECT ... fetchone` becomes `List.find?`, `INSERT` appends, `UPDATE ...
WHERE id = ?` maps over the list, `DELETE ... WHERE` filters), timestamps as
rationals (seconds), and calendar days as strings, exactly following the
handlers' logic.  The handlers call `datetime.now()` for the scan timestamp;
all such calls within one request are modelled by the single parameter `now`,
and the derived `strftime("%Y-%m-%d")` day string by the parameter `today`.
Randomly generated UUIDs become explicit parameters (`newEntryId`,
`companyId`, ...).
-/

namespace TimeTracking

/-- Python's `s.split(sep)` for a one-character separator, on character
lists: splitting on every occurrence, keeping empty pieces, and returning
`[[]]` on the empty string. -/
def splitChar (sep : Char) : List Char → List (List Char)
  | [] => [[]]
  | c :: rest =>
    if c = sep then [] :: splitChar sep rest
    else
      match splitChar sep rest with
      | [] => [[c]]
      | h :: t => (c :: h) :: t

/-- Python's `s.split(sep)` on strings (single-character separator). -/
def pySplit (sep : Char) (s : String) : List String :=
  (splitChar sep s.data).map List.asString

/-- Python's `s.startswith(p)`. -/
def pyStartsWith (p s : String) : Bool :=
  p.data.isPrefixOf s.data

/-- Error outcomes of the scan endpoint (HTTP 400 / 403 / 404 / 429). -/
inductive ScanError where
  | malformedPayload
  | crossTenant
  | unknownEmployee
  | cooldown (remainingSeconds : ℤ)
  deriving DecidableEq

/-- Errors of the provisioning endpoints (HTTP 400 / 404). -/
inductive ApiError where
  | duplicateName
  | duplicateUsername
  | companyNotFound
  deriving DecidableEq

/-- A row of the `companies` table. -/
structure Company where
  id : String
  name : String
  ownerId : String
  createdAt : ℚ
  deriving DecidableEq

/-- A row of the `users` table. -/
structure User where
  id : String
  username : String
  email : String
  passwordHash : String
  role : String
  companyId : String
  createdAt : ℚ
  deriving DecidableEq

/-- A row of the `employees` table. -/
structure Employee where
  id : String
  name : String
  surname : String
  position : String
  number : String
  qrCode : String
  companyId : String
  createdAt : ℚ
  deriving DecidableEq

/-- A row of the `time_entries` table. -/
structure TimeEntry where
  id : String
  employeeId : String
  checkIn : Option ℚ
  checkOut : Option ℚ
  date : String
  status : String
  lastScanTime : Option ℚ
  deriving DecidableEq

/-- The whole database. -/
structure State where
  companies : List Company
  users : List User
  employees : List Employee
  timeEntries : List TimeEntry
  deriving DecidableEq

/-- The success payload of the scan endpoint. -/
structure ScanRes where
  action : String
  employee : String
  time : ℚ
  message : String
  cooldownSeconds : ℤ
  deriving DecidableEq

/-- The QR payload generated at employee creation:
`f"EMP_{company_id}_{employee_data.number}_{str(uuid.uuid4())[:8]}"`,
with the random suffix as a parameter. -/
def employee_qr_data (companyId employeeNumber randomSuffix : String) : String :=
  "EMP_" ++ companyId ++ "_" ++ employeeNumber ++ "_" ++ randomSuffix

/-- Payload decoding as performed at the top of `scan_qr`: reject unless the
string starts with `EMP_`; split on `_`; reject when fewer than 3 fields;
otherwise return `(parts[1], parts[2])`. -/
def decodeQR (qrData : String) : Except ScanError (String × String) :=
  if pyStartsWith "EMP_" qrData then
    match pySplit '_' qrData with
    | _ :: qrCompanyId :: employeeNumber :: _ => .ok (qrCompanyId, employeeNumber)
    | _ => .error .malformedPayload
  else .error .malformedPayload

/-- The scan handler's `COOLDOWN_SECONDS = 5` constant, as a time quantity. -/
def COOLDOWN_SECONDS : ℚ := 5

/-- The `WHERE number = ? AND company_id = ?` clause of the scan handler's
employee lookup. -/
def matchesEmployee (employeeNumber companyId : String) (emp : Employee) : Bool :=
  emp.number == employeeNumber && emp.companyId == companyId

/-- The `WHERE employee_id = ? AND date = ? AND status = 'working'` clause of
the scan handler's open-entry lookup. -/
def isOpenEntryFor (employeeId today : String) (te : TimeEntry) : Bool :=
  te.employeeId == employeeId && te.date == today && te.status == "working"

/-- The `POST /api/time/scan` handler: decode the payload, reject foreign
companies, resolve the employee by `(number, company_id)`, look up the open
(`status = "working"`) entry for `(employee, today)`; if one exists, either
reject with the cooldown remaining-seconds (when the last scan was under 5
seconds ago) or complete it; otherwise insert a fresh working entry. -/
def scan_qr (st : State) (companyId : String) (qrData : String)
    (now : ℚ) (today : String) (newEntryId : String) :
    Except ScanError ScanRes × State :=
  match decodeQR qrData with
  | .error e => (.error e, st)
  | .ok (qrCompanyId, employeeNumber) =>
    if qrCompanyId ≠ companyId then (.error .crossTenant, st)
    else
      match st.employees.find? (matchesEmployee employeeNumber companyId) with
      | none => (.error .unknownEmployee, st)
      | some employee =>
        match st.timeEntries.find? (isOpenEntryFor employee.id today) with
        | some existingEntry =>
          let cooldownHit : Option ℤ :=
            match existingEntry.lastScanTime with
            | some lastScan =>
              if now - lastScan < COOLDOWN_SECONDS then
                some ⌊COOLDOWN_SECONDS - (now - lastScan)⌋
              else none
            | none => none
          match cooldownHit with
          | some remainingSeconds => (.error (.cooldown remainingSeconds), st)
          | none =>
            (.ok { action := "check_out",
                   employee := employee.name ++ " " ++ employee.surname,
                   time := now,
                   message := "Pomyślnie zakończono pracę",
                   cooldownSeconds := 5 },
             { st with timeEntries := st.timeEntries.map fun te =>
                 if te.id == existingEntry.id then
                   { te with checkOut := some now, status := "completed",
                             lastScanTime := some now }
                 else te })
        | none =>
          (.ok { action := "check_in",
                 employee := employee.name ++ " " ++ employee.surname,
                 time := now,
                 message := "Pomyślnie rozpoczęto pracę",
                 cooldownSeconds := 5 },
           { st with timeEntries := st.timeEntries ++
               [{ id := newEntryId, employeeId := employee.id,
                  checkIn := some now, checkOut := none, date := today,
                  status := "working", lastScanTime := some now }] })

/-- The `POST /api/auth/register-company` handler: reject a duplicate company
name, then a duplicate admin username; otherwise insert the company (owner
reference `"system"`) and its admin user and commit both together. -/
def register_company (st : State) (companyName adminUsername adminEmail
    adminPasswordHash : String) (companyId adminUserId : String) (now : ℚ) :
    Except ApiError (String × String) × State :=
  if (st.companies.find? fun c => c.name == companyName).isSome then
    (.error .duplicateName, st)
  else if (st.users.find? fun u => u.username == adminUsername).isSome then
    (.error .duplicateUsername, st)
  else
    (.ok (companyId, adminUserId),
     { st with
         companies := st.companies ++
           [{ id := companyId, name := companyName, ownerId := "system",
              createdAt := now }],
         users := st.users ++
           [{ id := adminUserId, username := adminUsername, email := adminEmail,
              passwordHash := adminPasswordHash, role := "admin",
              companyId := companyId, createdAt := now }] })

/-- The owner-only `POST /api/owner/companies` handler: identical guards to
`register_company`, with the owner's real id as the company's back-reference. -/
def create_company (st : State) (companyName adminUsername adminEmail
    adminPasswordHash : String) (ownerId : String)
    (companyId adminUserId : String) (now : ℚ) :
    Except ApiError (String × String) × State :=
  if (st.companies.find? fun c => c.name == companyName).isSome then
    (.error .duplicateName, st)
  else if (st.users.find? fun u => u.username == adminUsername).isSome then
    (.error .duplicateUsername, st)
  else
    (.ok (companyId, adminUserId),
     { st with
         companies := st.companies ++
           [{ id := companyId, name := companyName, ownerId := ownerId,
              createdAt := now }],
         users := st.users ++
           [{ id := adminUserId, username := adminUsername, email := adminEmail,
              passwordHash := adminPasswordHash, role := "admin",
              companyId := companyId, createdAt := now }] })

/-- The owner-only `DELETE /api/owner/companies/{company_id}` handler: 404 on
an unknown id; otherwise collect the company's employee ids, delete their
time entries (skipped when the id list is empty), then the company's users,
then its employees, then the company row itself. -/
def delete_company (st : State) (companyId : String) :
    Except ApiError Unit × State :=
  match st.companies.find? fun c => c.id == companyId with
  | none => (.error .companyNotFound, st)
  | some _ =>
    let employeeIds := (st.employees.filter fun e => e.companyId == companyId).map Employee.id
    let timeEntries' :=
      if employeeIds.isEmpty then st.timeEntries
      else st.timeEntries.filter fun te => !(employeeIds.contains te.employeeId)
    (.ok (),
     { companies := st.companies.filter fun c => !(c.id == companyId),
       users := st.users.filter fun u => !(u.companyId == companyId),
       employees := st.employees.filter fun e => !(e.companyId == companyId),
       timeEntries := timeEntries' })

/-- The admin `DELETE /api/employees/{employee_id}` handler: delete the
employee row matching `(id, company_id)` without checking it exists, delete
every time entry whose `employee_id` matches (with no company scoping), and
report success unconditionally. -/
def delete_employee (st : State) (companyId employeeId : String) :
    String × State :=
  ("Employee deleted successfully",
   { st with
       employees := st.employees.filter fun e =>
         !(e.id == employeeId && e.companyId == companyId),
       timeEntries := st.timeEntries.filter fun te => !(te.employeeId == employeeId) })

/-- Decidable equality of request outcomes, for evaluating the handlers on
concrete inputs. -/
instance {ε α : Type} [DecidableEq ε] [DecidableEq α] : DecidableEq (Except ε α) := fun x y =>
  match x, y with
  | .error a, .error b =>
    if h : a = b then .isTrue (h ▸ rfl) else .isFalse fun hh => h (Except.error.inj hh)
  | .ok a, .ok b =>
    if h : a = b then .isTrue (h ▸ rfl) else .isFalse fun hh => h (Except.ok.inj hh)
  | .error _, .ok _ => .isFalse fun hh => Except.noConfusion hh
  | .ok _, .error _ => .isFalse fun hh => Except.noConfusion hh

/-- Number of `status = "working"` time entries for one employee on one day. -/
def workingCount (st : State) (employeeId date : String) : ℕ :=
  st.timeEntries.countP (isOpenEntryFor employeeId date)

/-- At most one open session per employee per calendar day. -/
def oneWorkingInv (st : State) : Prop :=
  ∀ employeeId date, workingCount st employeeId date ≤ 1

/-- Every company has an admin user. -/
def adminInv (st : State) : Prop :=
  ∀ c ∈ st.companies, ∃ u ∈ st.users, u.companyId = c.id ∧ u.role = "admin"

/-! ### Auxiliary lemmas about the codec and the scan handler's branches -/

theorem splitChar_append_of_not_mem (sep : Char) (a b : List Char) (ha : sep ∉ a) :
    splitChar sep (a ++ sep :: b) = a :: splitChar sep b := by
  induction a with
  | nil => simp [splitChar]
  | cons c cs ih =>
    have hc : ¬ c = sep := fun h => ha (h ▸ List.mem_cons_self c cs)
    have ih' := ih fun h => ha (List.mem_cons_of_mem c h)
    simp only [List.cons_append, splitChar, if_neg hc, List.append_eq, ih']

theorem pySplit_qr_data (companyId employeeNumber randomSuffix : String)
    (hc : '_' ∉ companyId.data) (hn : '_' ∉ employeeNumber.data) :
    pySplit '_' (employee_qr_data companyId employeeNumber randomSuffix) =
      "EMP" :: companyId :: employeeNumber ::
        (splitChar '_' randomSuffix.data).map List.asString := by
  have hdata : (employee_qr_data companyId employeeNumber randomSuffix).data =
      ['E','M','P'] ++ '_' :: (companyId.data ++ '_' ::
        (employeeNumber.data ++ '_' :: randomSuffix.data)) := by
    simp [employee_qr_data]
  rw [pySplit, hdata, splitChar_append_of_not_mem _ _ _ (by decide),
    splitChar_append_of_not_mem _ _ _ hc, splitChar_append_of_not_mem _ _ _ hn]
  rfl

theorem scan_qr_decode_error {qrData : String} {e : ScanError}
    (st : State) (companyId : String) (now : ℚ) (today newEntryId : String)
    (hdec : decodeQR qrData = .error e) :
    scan_qr st companyId qrData now today newEntryId = (.error e, st) := by
  simp [scan_qr, hdec]

theorem scan_qr_cross_tenant {qrData qrCompanyId employeeNumber : String}
    (st : State) (companyId : String) (now : ℚ) (today newEntryId : String)
    (hdec : decodeQR qrData = .ok (qrCompanyId, employeeNumber))
    (hne : qrCompanyId ≠ companyId) :
    scan_qr st companyId qrData now today newEntryId = (.error .crossTenant, st) := by
  simp [scan_qr, hdec, hne]

theorem scan_qr_unknown_employee {qrData employeeNumber : String}
    (st : State) (companyId : String) (now : ℚ) (today newEntryId : String)
    (hdec : decodeQR qrData = .ok (companyId, employeeNumber))
    (hemp : st.employees.find? (matchesEmployee employeeNumber companyId) = none) :
    scan_qr st companyId qrData now today newEntryId = (.error .unknownEmployee, st) := by
  simp [scan_qr, hdec, hemp]

theorem scan_qr_checkin {qrData employeeNumber : String} {employee : Employee}
    (st : State) (companyId : String) (now : ℚ) (today newEntryId : String)
    (hdec : decodeQR qrData = .ok (companyId, employeeNumber))
    (hemp : st.employees.find? (matchesEmployee employeeNumber companyId) = some employee)
    (hentry : st.timeEntries.find? (isOpenEntryFor employee.id today) = none) :
    scan_qr st companyId qrData now today newEntryId =
      (.ok { action := "check_in",
             employee := employee.name ++ " " ++ employee.surname,
             time := now,
             message := "Pomyślnie rozpoczęto pracę",
             cooldownSeconds := 5 },
       { st with timeEntries := st.timeEntries ++
           [{ id := newEntryId, employeeId := employee.id,
              checkIn := some now, checkOut := none, date := today,
              status := "working", lastScanTime := some now }] }) := by
  simp [scan_qr, hdec, hemp, hentry]

theorem scan_qr_cooldown {qrData employeeNumber : String} {employee : Employee}
    {entry : TimeEntry} {lastScan : ℚ}
    (st : State) (companyId : String) (now : ℚ) (today newEntryId : String)
    (hdec : decodeQR qrData = .ok (companyId, employeeNumber))
    (hemp : st.employees.find? (matchesEmployee employeeNumber companyId) = some employee)
    (hentry : st.timeEntries.find? (isOpenEntryFor employee.id today) = some entry)
    (hlast : entry.lastScanTime = some lastScan)
    (hwin : now - lastScan < COOLDOWN_SECONDS) :
    scan_qr st companyId qrData now today newEntryId =
      (.error (.cooldown ⌊COOLDOWN_SECONDS - (now - lastScan)⌋), st) := by
  simp [scan_qr, hdec, hemp, hentry, hlast, hwin]

theorem scan_qr_checkout {qrData employeeNumber : String} {employee : Employee}
    {entry : TimeEntry}
    (st : State) (companyId : String) (now : ℚ) (today newEntryId : String)
    (hdec : decodeQR qrData = .ok (companyId, employeeNumber))
    (hemp : st.employees.find? (matchesEmployee employeeNumber companyId) = some employee)
    (hentry : st.timeEntries.find? (isOpenEntryFor employee.id today) = some entry)
    (hnocool : ∀ lastScan : ℚ, entry.lastScanTime = some lastScan →
      COOLDOWN_SECONDS ≤ now - lastScan) :
    scan_qr st companyId qrData now today newEntryId =
      (.ok { action := "check_out",
             employee := employee.name ++ " " ++ employee.surname,
             time := now,
             message := "Pomyślnie zakończono pracę",
             cooldownSeconds := 5 },
       { st with timeEntries := st.timeEntries.map fun te =>
           if te.id == entry.id then
             { te with checkOut := some now, status := "completed",
                       lastScanTime := some now }
           else te }) := by
  rcases hlast : entry.lastScanTime with _ | lastScan
  · simp [scan_qr, hdec, hemp, hentry, hlast]
  · have h5 := hnocool lastScan hlast
    simp [scan_qr, hdec, hemp, hentry, hlast, not_lt.mpr h5]

theorem countP_le_of_map {α : Type} (p : α → Bool) (f : α → α) (l : List α)
    (h : ∀ x, p (f x) = true → p x = true) :
    (l.map f).countP p ≤ l.countP p := by
  rw [List.countP_map]
  exact List.countP_mono_left fun a _ ha => h a ha

theorem entry_status_of_find? {l : List TimeEntry} {employeeId today : String}
    {entry : TimeEntry} (h : l.find? (isOpenEntryFor employeeId today) = some entry) :
    entry.employeeId = employeeId ∧ entry.date = today ∧ entry.status = "working" := by
  have := List.find?_some h
  simp [isOpenEntryFor] at this
  exact ⟨this.1.1, this.1.2, this.2⟩

theorem checkout_update_preserves_completed {st : State} {entry : TimeEntry}
    (hnodup : (st.timeEntries.map TimeEntry.id).Nodup)
    (hentrymem : entry ∈ st.timeEntries) (hwork : entry.status = "working")
    {te : TimeEntry} (hte : te ∈ st.timeEntries) (hstat : te.status = "completed")
    (now : ℚ) :
    te ∈ st.timeEntries.map fun x =>
      if x.id == entry.id then
        { x with checkOut := some now, status := "completed", lastScanTime := some now }
      else x := by
  have hne_id : te.id ≠ entry.id := by
    intro h
    have : te = entry := List.inj_on_of_nodup_map hnodup hte hentrymem h
    rw [this, hwork] at hstat
    exact absurd hstat (by decide)
  have h2 := List.mem_map_of_mem (fun x =>
    if x.id == entry.id then
      ({ x with checkOut := some now, status := "completed",
                lastScanTime := some now } : TimeEntry)
    else x) hte
  simpa [hne_id] using h2

theorem find?_name_isSome {st : State} {companyName : String}
    (h : ∃ c ∈ st.companies, c.name = companyName) :
    (st.companies.find? fun c => c.name == companyName).isSome = true := by
  rw [List.find?_isSome]
  obtain ⟨c, hc, hcn⟩ := h
  exact ⟨c, hc, by simp [hcn]⟩

theorem find?_name_eq_none {st : State} {companyName : String}
    (h : ∀ c ∈ st.companies, c.name ≠ companyName) :
    (st.companies.find? fun c => c.name == companyName) = none := by
  rw [List.find?_eq_none]
  intro c hc
  simp [h c hc]

theorem find?_username_isSome {st : State} {adminUsername : String}
    (h : ∃ u ∈ st.users, u.username = adminUsername) :
    (st.users.find? fun u => u.username == adminUsername).isSome = true := by
  rw [List.find?_isSome]
  obtain ⟨u, hu, hun⟩ := h
  exact ⟨u, hu, by simp [hun]⟩

theorem find?_username_eq_none {st : State} {adminUsername : String}
    (h : ∀ u ∈ st.users, u.username ≠ adminUsername) :
    (st.users.find? fun u => u.username == adminUsername) = none := by
  rw [List.find?_eq_none]
  intro u hu
  simp [h u hu]

/-! ### Claim theorems -/

/-- C4 (amended): round-trip of the QR identity codec — for all companyId and
employee-number strings that contain no underscore, decoding the payload
produced by `employee_qr_data` (for any random suffix) yields back exactly
`(companyId, number)`. -/
theorem qr_codec_roundTrip (companyId employeeNumber randomSuffix : String)
    (hc : '_' ∉ companyId.data) (hn : '_' ∉ employeeNumber.data) :
    decodeQR (employee_qr_data companyId employeeNumber randomSuffix) =
      .ok (companyId, employeeNumber) := by
  have hpre : pyStartsWith "EMP_"
      (employee_qr_data companyId employeeNumber randomSuffix) = true := by
    simp [pyStartsWith, employee_qr_data, List.isPrefixOf]
  rw [decodeQR, if_pos hpre, pySplit_qr_data _ _ _ hc hn]

/-- C4 witness: the round-trip at a concrete underscore-free identity. -/
theorem qr_codec_roundTrip_witness :
    decodeQR (employee_qr_data "comp1" "007" "abcd1234") = .ok ("comp1", "007") :=
  qr_codec_roundTrip "comp1" "007" "abcd1234" (by decide) (by decide)

/-- C4 counterexample: with an underscore inside the employee number the
round-trip fails — the decoder truncates the number at the underscore. -/
theorem qr_codec_roundTrip_counterexample :
    decodeQR (employee_qr_data "c" "0_7" "abcd1234") = .ok ("c", "0") ∧
    decodeQR (employee_qr_data "c" "0_7" "abcd1234") ≠ .ok ("c", "0_7") := by
  decide

/-- C7: QR decoding fails with the malformed-payload error exactly when the
payload does not start with `EMP_` or splits into fewer than three
underscore-separated fields, and a scan with such a payload returns the error
with the store untouched. -/
theorem decode_malformed_iff_no_mutation (st : State) (companyId qrData : String)
    (now : ℚ) (today newEntryId : String) :
    (decodeQR qrData = .error .malformedPayload ↔
      ¬ pyStartsWith "EMP_" qrData = true ∨ (pySplit '_' qrData).length < 3) ∧
    (decodeQR qrData = .error .malformedPayload →
      scan_qr st companyId qrData now today newEntryId =
        (.error .malformedPayload, st)) := by
  constructor
  · unfold decodeQR
    cases hpre : pyStartsWith "EMP_" qrData with
    | false => simp
    | true =>
      rcases hsplit : pySplit '_' qrData with _ | ⟨a, _ | ⟨b, _ | ⟨c, t⟩⟩⟩ <;> simp
  · intro h
    exact scan_qr_decode_error st companyId now today newEntryId h

/-- C7 witness: a concrete malformed payload is rejected without mutation. -/
theorem decode_malformed_iff_no_mutation_witness :
    scan_qr ⟨[], [], [], []⟩ "c1" "XYZ" 0 "2024-01-01" "n1" =
      (.error .malformedPayload, ⟨[], [], [], []⟩) :=
  (decode_malformed_iff_no_mutation ⟨[], [], [], []⟩ "c1" "XYZ" 0 "2024-01-01" "n1").2
    (by decide)

/-- C3: whenever the decoded payload carries a company id different from the
caller's, the scan fails with the cross-tenant error and returns the store
unchanged, for every store — in particular regardless of whether the encoded
employee number also exists under the caller's company. -/
theorem cross_tenant_isolation (st : State)
    (companyId qrData : String) (now : ℚ) (today newEntryId : String)
    (qrCompanyId employeeNumber : String)
    (hdec : decodeQR qrData = .ok (qrCompanyId, employeeNumber))
    (hne : qrCompanyId ≠ companyId) :
    scan_qr st companyId qrData now today newEntryId = (.error .crossTenant, st) :=
  scan_qr_cross_tenant st companyId now today newEntryId hdec hne

/-- C3 witness: a concrete foreign QR code is rejected even though the
employee number exists under the caller's company. -/
theorem cross_tenant_isolation_witness :
    scan_qr ⟨[], [], [⟨"e1","Jan","Kowalski","w","7","qr","b",0⟩], []⟩
      "b" "EMP_a_7_x" 0 "2024-01-01" "n1" =
      (.error .crossTenant, ⟨[], [], [⟨"e1","Jan","Kowalski","w","7","qr","b",0⟩], []⟩) :=
  cross_tenant_isolation _ "b" "EMP_a_7_x" 0 "2024-01-01" "n1" "a" "7"
    (by decide) (by decide)

/-- C2 (amended): a second scan within `COOLDOWN_SECONDS` of the last scan
recorded on the *open* (`status = "working"`) entry for (employee, today)
never mutates the store, fails with the cooldown rejection carrying
`⌊COOLDOWN_SECONDS - elapsed⌋` remaining seconds, and the reported value is
monotonically non-increasing as time passes within the window. -/
theorem cooldown_rejection (st : State) (companyId qrData : String)
    (now now' : ℚ) (today newEntryId : String)
    (employeeNumber : String) (employee : Employee) (entry : TimeEntry) (lastScan : ℚ)
    (hdec : decodeQR qrData = .ok (companyId, employeeNumber))
    (hemp : st.employees.find? (matchesEmployee employeeNumber companyId) = some employee)
    (hentry : st.timeEntries.find? (isOpenEntryFor employee.id today) = some entry)
    (hlast : entry.lastScanTime = some lastScan)
    (hwin : now - lastScan < COOLDOWN_SECONDS)
    (hle : now ≤ now')
    (hwin' : now' - lastScan < COOLDOWN_SECONDS) :
    scan_qr st companyId qrData now today newEntryId =
      (.error (.cooldown ⌊COOLDOWN_SECONDS - (now - lastScan)⌋), st) ∧
    scan_qr st companyId qrData now' today newEntryId =
      (.error (.cooldown ⌊COOLDOWN_SECONDS - (now' - lastScan)⌋), st) ∧
    ⌊COOLDOWN_SECONDS - (now' - lastScan)⌋ ≤ ⌊COOLDOWN_SECONDS - (now - lastScan)⌋ := by
  refine ⟨scan_qr_cooldown st companyId now today newEntryId hdec hemp hentry hlast hwin,
    scan_qr_cooldown st companyId now' today newEntryId hdec hemp hentry hlast hwin',
    Int.floor_le_floor ?_⟩
  linarith

/-- C2 witness: a concrete rejected scan two seconds into an open session. -/
theorem cooldown_rejection_witness :
    scan_qr
      ⟨[], [], [⟨"e1","Jan","Kowalski","w","7","qr","c1",0⟩],
        [⟨"t1","e1", some 100, none, "2024-01-01", "working", some 100⟩]⟩
      "c1" "EMP_c1_7_ab" 102 "2024-01-01" "t2" =
      (.error (.cooldown ⌊COOLDOWN_SECONDS - ((102 : ℚ) - 100)⌋),
       ⟨[], [], [⟨"e1","Jan","Kowalski","w","7","qr","c1",0⟩],
        [⟨"t1","e1", some 100, none, "2024-01-01", "working", some 100⟩]⟩) :=
  (cooldown_rejection _ "c1" "EMP_c1_7_ab" 102 103 "2024-01-01" "t2" "7"
    ⟨"e1","Jan","Kowalski","w","7","qr","c1",0⟩
    ⟨"t1","e1", some 100, none, "2024-01-01", "working", some 100⟩ 100
    (by decide) (by decide) (by decide) rfl (by norm_num [COOLDOWN_SECONDS])
    (by norm_num) (by norm_num [COOLDOWN_SECONDS])).1

/-- C2 counterexample to the claim as stated: after a check-out, the
employee's last scan time is 100, yet a new scan at 102 — two seconds later,
well inside the 5-second window — is accepted as a fresh check-in and mutates
the store, because the cooldown check only guards open entries. -/
theorem cooldown_rejection_counterexample :
    ((102 : ℚ) - 100 < COOLDOWN_SECONDS) ∧
    (⟨[], [], [⟨"e1","Jan","Kowalski","w","7","qr","c1",0⟩],
       [⟨"t0","e1", some 90, some 100, "2024-01-01", "completed", some 100⟩]⟩ : State).timeEntries.map
        TimeEntry.lastScanTime = [some 100] ∧
    (scan_qr
      ⟨[], [], [⟨"e1","Jan","Kowalski","w","7","qr","c1",0⟩],
       [⟨"t0","e1", some 90, some 100, "2024-01-01", "completed", some 100⟩]⟩
      "c1" "EMP_c1_7_ab" 102 "2024-01-01" "t2").2 ≠
      ⟨[], [], [⟨"e1","Jan","Kowalski","w","7","qr","c1",0⟩],
       [⟨"t0","e1", some 90, some 100, "2024-01-01", "completed", some 100⟩]⟩ ∧
    (scan_qr
      ⟨[], [], [⟨"e1","Jan","Kowalski","w","7","qr","c1",0⟩],
       [⟨"t0","e1", some 90, some 100, "2024-01-01", "completed", some 100⟩]⟩
      "c1" "EMP_c1_7_ab" 102 "2024-01-01" "t2").1 =
      .ok ⟨"check_in", "Jan Kowalski", 102, "Pomyślnie rozpoczęto pracę", 5⟩ :=
  ⟨by norm_num [COOLDOWN_SECONDS], by decide, by decide, by decide⟩

/-- C5: scan postconditions — with the payload decoding to the caller's
company and the employee resolved, a scan with no open entry for (employee,
today) appends a fresh working entry carrying checkIn = now, date = today,
lastScanTime = now and reports a check-in with the employee's full name and
time; with an open entry whose cooldown has elapsed, it completes exactly
that entry (checkOut = now, status = completed, lastScanTime = now) and
reports a check-out. -/
theorem scan_postconditions (st : State) (companyId qrData : String) (now : ℚ)
    (today newEntryId : String) (employeeNumber : String) (employee : Employee)
    (hdec : decodeQR qrData = .ok (companyId, employeeNumber))
    (hemp : st.employees.find? (matchesEmployee employeeNumber companyId) = some employee) :
    (st.timeEntries.find? (isOpenEntryFor employee.id today) = none →
      scan_qr st companyId qrData now today newEntryId =
        (.ok { action := "check_in",
               employee := employee.name ++ " " ++ employee.surname,
               time := now, message := "Pomyślnie rozpoczęto pracę",
               cooldownSeconds := 5 },
         { st with timeEntries := st.timeEntries ++
             [{ id := newEntryId, employeeId := employee.id, checkIn := some now,
                checkOut := none, date := today, status := "working",
                lastScanTime := some now }] })) ∧
    (∀ entry : TimeEntry, ∀ lastScan : ℚ,
      st.timeEntries.find? (isOpenEntryFor employee.id today) = some entry →
      entry.lastScanTime = some lastScan → COOLDOWN_SECONDS ≤ now - lastScan →
      scan_qr st companyId qrData now today newEntryId =
        (.ok { action := "check_out",
               employee := employee.name ++ " " ++ employee.surname,
               time := now, message := "Pomyślnie zakończono pracę",
               cooldownSeconds := 5 },
         { st with timeEntries := st.timeEntries.map fun te =>
             if te.id == entry.id then
               { te with checkOut := some now, status := "completed",
                         lastScanTime := some now }
             else te }) ∧
      { entry with checkOut := some now, status := "completed",
                   lastScanTime := some now } ∈
        (scan_qr st companyId qrData now today newEntryId).2.timeEntries) := by
  constructor
  · intro hnone
    exact scan_qr_checkin st companyId now today newEntryId hdec hemp hnone
  · intro entry lastScan hentry hlast h5
    have hnocool : ∀ ls : ℚ, entry.lastScanTime = some ls →
        COOLDOWN_SECONDS ≤ now - ls := by
      intro ls hls
      rw [hlast] at hls
      cases hls
      exact h5
    have heq := scan_qr_checkout st companyId now today newEntryId hdec hemp hentry hnocool
    refine ⟨heq, ?_⟩
    rw [heq]
    have hmem : entry ∈ st.timeEntries := List.mem_of_find?_eq_some hentry
    have h2 := List.mem_map_of_mem (fun te =>
      if te.id == entry.id then
        ({ te with checkOut := some now, status := "completed",
                   lastScanTime := some now } : TimeEntry)
      else te) hmem
    simpa using h2

/-- C5 witness: a concrete check-in scan. -/
theorem scan_postconditions_witness :
    scan_qr ⟨[], [], [⟨"e1","Jan","Kowalski","w","7","qr","c1",0⟩], []⟩
      "c1" "EMP_c1_7_ab" 102 "2024-01-01" "t2" =
      (.ok ⟨"check_in", "Jan Kowalski", 102, "Pomyślnie rozpoczęto pracę", 5⟩,
       ⟨[], [], [⟨"e1","Jan","Kowalski","w","7","qr","c1",0⟩],
        [⟨"t2","e1", some 102, none, "2024-01-01", "working", some 102⟩]⟩) :=
  (scan_postconditions _ "c1" "EMP_c1_7_ab" 102 "2024-01-01" "t2" "7"
    ⟨"e1","Jan","Kowalski","w","7","qr","c1",0⟩ (by decide) (by decide)).1 (by decide)

/-- C6: completed sessions are immutable under scanning — assuming the
primary-key invariant (distinct entry ids), every completed entry survives
any scan unchanged, and a scan finding no open entry appends a brand-new
entry instead of reopening anything. -/
theorem completed_sessions_immutable (st : State) (companyId qrData : String)
    (now : ℚ) (today newEntryId : String)
    (hnodup : (st.timeEntries.map TimeEntry.id).Nodup) :
    (∀ te ∈ st.timeEntries, te.status = "completed" →
      te ∈ (scan_qr st companyId qrData now today newEntryId).2.timeEntries) ∧
    (∀ employeeNumber : String, ∀ employee : Employee,
      decodeQR qrData = .ok (companyId, employeeNumber) →
      st.employees.find? (matchesEmployee employeeNumber companyId) = some employee →
      st.timeEntries.find? (isOpenEntryFor employee.id today) = none →
      (scan_qr st companyId qrData now today newEntryId).2.timeEntries =
        st.timeEntries ++
          [{ id := newEntryId, employeeId := employee.id, checkIn := some now,
             checkOut := none, date := today, status := "working",
             lastScanTime := some now }]) := by
  constructor
  · intro te hte hstat
    rcases hdec : decodeQR qrData with e | ⟨q, n⟩
    · rw [scan_qr_decode_error st companyId now today newEntryId hdec]
      exact hte
    · by_cases hq : q = companyId
      · subst hq
        rcases hemp : st.employees.find? (matchesEmployee n q) with _ | employee
        · rw [scan_qr_unknown_employee st q now today newEntryId hdec hemp]
          exact hte
        · rcases hentry : st.timeEntries.find? (isOpenEntryFor employee.id today) with
            _ | entry
          · rw [scan_qr_checkin st q now today newEntryId hdec hemp hentry]
            exact List.mem_append_left _ hte
          · obtain ⟨-, -, hwork⟩ := entry_status_of_find? hentry
            have hentrymem : entry ∈ st.timeEntries := List.mem_of_find?_eq_some hentry
            rcases hlast : entry.lastScanTime with _ | lastScan
            · rw [scan_qr_checkout st q now today newEntryId hdec hemp hentry
                (fun ls hls => by rw [hlast] at hls; cases hls)]
              exact checkout_update_preserves_completed hnodup hentrymem hwork hte hstat now
            · by_cases hwin : now - lastScan < COOLDOWN_SECONDS
              · rw [scan_qr_cooldown st q now today newEntryId hdec hemp hentry hlast hwin]
                exact hte
              · rw [scan_qr_checkout st q now today newEntryId hdec hemp hentry
                  (fun ls hls => by
                    rw [hlast] at hls; cases hls; exact le_of_not_lt hwin)]
                exact checkout_update_preserves_completed hnodup hentrymem hwork hte hstat now
      · rw [scan_qr_cross_tenant st companyId now today newEntryId hdec hq]
        exact hte
  · intro employeeNumber employee hdec hemp hentry
    rw [scan_qr_checkin st companyId now today newEntryId hdec hemp hentry]

/-- C6 witness: a concrete completed entry surviving a same-day scan that
starts a second session. -/
theorem completed_sessions_immutable_witness :
    ({ id := "t0", employeeId := "e1", checkIn := some 10, checkOut := some 20,
       date := "2024-01-01", status := "completed",
       lastScanTime := some 20 } : TimeEntry) ∈
      ((scan_qr ⟨[], [], [⟨"e1","Jan","Kowalski","w","7","qr","c1",0⟩],
        [⟨"t0","e1", some 10, some 20, "2024-01-01", "completed", some 20⟩]⟩
        "c1" "EMP_c1_7_ab" 102 "2024-01-01" "t2").2).timeEntries :=
  (completed_sessions_immutable
    ⟨[], [], [⟨"e1","Jan","Kowalski","w","7","qr","c1",0⟩],
      [⟨"t0","e1", some 10, some 20, "2024-01-01", "completed", some 20⟩]⟩
    "c1" "EMP_c1_7_ab" 102 "2024-01-01" "t2" (by decide)).1
    ⟨"t0","e1", some 10, some 20, "2024-01-01", "completed", some 20⟩
    (by decide) rfl

/-- C1: the one-open-session invariant — if at most one working entry exists
per (employee, date), then after any scan this still holds: a check-in only
happens when the lookup found no open entry, and a check-out only completes
entries. -/
theorem one_working_invariant (st : State) (companyId qrData : String)
    (now : ℚ) (today newEntryId : String)
    (hinv : oneWorkingInv st) :
    oneWorkingInv (scan_qr st companyId qrData now today newEntryId).2 := by
  rcases hdec : decodeQR qrData with e | ⟨q, n⟩
  · rw [scan_qr_decode_error st companyId now today newEntryId hdec]
    exact hinv
  · by_cases hq : q = companyId
    · subst hq
      rcases hemp : st.employees.find? (matchesEmployee n q) with _ | employee
      · rw [scan_qr_unknown_employee st q now today newEntryId hdec hemp]
        exact hinv
      · rcases hentry : st.timeEntries.find? (isOpenEntryFor employee.id today) with
          _ | entry
        · rw [scan_qr_checkin st q now today newEntryId hdec hemp hentry]
          intro e d
          simp only [oneWorkingInv, workingCount] at hinv ⊢
          rw [List.countP_append]
          by_cases hkey : employee.id = e ∧ today = d
          · obtain ⟨he, hd⟩ := hkey
            subst he; subst hd
            have hzero : st.timeEntries.countP (isOpenEntryFor employee.id today) = 0 := by
              rw [List.countP_eq_zero]
              intro a ha
              exact List.find?_eq_none.mp hentry a ha
            rw [hzero]
            simp [isOpenEntryFor]
          · have hnew : (List.countP (isOpenEntryFor e d)
                [({ id := newEntryId, employeeId := employee.id, checkIn := some now,
                    checkOut := none, date := today, status := "working",
                    lastScanTime := some now } : TimeEntry)]) = 0 := by
              rw [List.countP_eq_zero]
              intro a ha
              rw [List.mem_singleton] at ha
              subst ha
              simp only [isOpenEntryFor, Bool.and_eq_true, beq_iff_eq]
              rintro ⟨⟨h1, h2⟩, -⟩
              exact hkey ⟨h1, h2⟩
            rw [hnew]
            simpa using hinv e d
        · rcases hlast : entry.lastScanTime with _ | lastScan
          · rw [scan_qr_checkout st q now today newEntryId hdec hemp hentry
              (fun ls hls => by rw [hlast] at hls; cases hls)]
            intro e d
            refine le_trans (countP_le_of_map _ _ _ ?_) (hinv e d)
            intro x hx
            by_cases hid : x.id == entry.id
            · simp only [hid, if_pos] at hx
              simp [isOpenEntryFor] at hx
            · simp only [hid] at hx
              simpa using hx
          · by_cases hwin : now - lastScan < COOLDOWN_SECONDS
            · rw [scan_qr_cooldown st q now today newEntryId hdec hemp hentry hlast hwin]
              exact hinv
            · rw [scan_qr_checkout st q now today newEntryId hdec hemp hentry
                (fun ls hls => by
                  rw [hlast] at hls; cases hls; exact le_of_not_lt hwin)]
              intro e d
              refine le_trans (countP_le_of_map _ _ _ ?_) (hinv e d)
              intro x hx
              by_cases hid : x.id == entry.id
              · simp only [hid, if_pos] at hx
                simp [isOpenEntryFor] at hx
              · simp only [hid] at hx
                simpa using hx
    · rw [scan_qr_cross_tenant st companyId now today newEntryId hdec hq]
      exact hinv

/-- C1 witness: the invariant after a concrete check-out scan. -/
theorem one_working_invariant_witness :
    oneWorkingInv (scan_qr
      ⟨[], [], [⟨"e1","Jan","Kowalski","w","7","qr","c1",0⟩],
        [⟨"t1","e1", some 100, none, "2024-01-01", "working", some 100⟩]⟩
      "c1" "EMP_c1_7_ab" 108 "2024-01-01" "t2").2 :=
  one_working_invariant _ "c1" "EMP_c1_7_ab" 108 "2024-01-01" "t2"
    fun e d => le_trans (List.countP_le_length _) (by simp)

/-- C8: company creation (self-service `register_company` and owner-driven
`create_company`) rejects a duplicate company name or admin username with the
matching conflict error and then creates nothing; otherwise both insert the
company and its admin user in the same commit, so the every-company-has-an-
admin invariant is preserved in all cases. -/
theorem company_creation (st : State)
    (companyName adminUsername adminEmail pw ownerId companyId adminUserId : String)
    (now : ℚ) :
    ((∃ c ∈ st.companies, c.name = companyName) →
      register_company st companyName adminUsername adminEmail pw companyId adminUserId now =
        (.error .duplicateName, st) ∧
      create_company st companyName adminUsername adminEmail pw ownerId companyId adminUserId now =
        (.error .duplicateName, st)) ∧
    ((∀ c ∈ st.companies, c.name ≠ companyName) →
      (∃ u ∈ st.users, u.username = adminUsername) →
      register_company st companyName adminUsername adminEmail pw companyId adminUserId now =
        (.error .duplicateUsername, st) ∧
      create_company st companyName adminUsername adminEmail pw ownerId companyId adminUserId now =
        (.error .duplicateUsername, st)) ∧
    ((∀ c ∈ st.companies, c.name ≠ companyName) →
      (∀ u ∈ st.users, u.username ≠ adminUsername) →
      register_company st companyName adminUsername adminEmail pw companyId adminUserId now =
        (.ok (companyId, adminUserId),
         { st with
             companies := st.companies ++
               [{ id := companyId, name := companyName, ownerId := "system",
                  createdAt := now }],
             users := st.users ++
               [{ id := adminUserId, username := adminUsername, email := adminEmail,
                  passwordHash := pw, role := "admin", companyId := companyId,
                  createdAt := now }] }) ∧
      create_company st companyName adminUsername adminEmail pw ownerId companyId adminUserId now =
        (.ok (companyId, adminUserId),
         { st with
             companies := st.companies ++
               [{ id := companyId, name := companyName, ownerId := ownerId,
                  createdAt := now }],
             users := st.users ++
               [{ id := adminUserId, username := adminUsername, email := adminEmail,
                  passwordHash := pw, role := "admin", companyId := companyId,
                  createdAt := now }] })) ∧
    (adminInv st →
      adminInv (register_company st companyName adminUsername adminEmail pw
        companyId adminUserId now).2 ∧
      adminInv (create_company st companyName adminUsername adminEmail pw ownerId
        companyId adminUserId now).2) := by
  refine ⟨?_, ?_, ?_, ?_⟩
  · intro hdup
    have h1 := find?_name_isSome hdup
    constructor <;> simp [register_company, create_company, h1]
  · intro hno hdup
    have h1 := find?_name_eq_none hno
    have h2 := find?_username_isSome hdup
    constructor <;> simp [register_company, create_company, h1, h2]
  · intro hno hnou
    have h1 := find?_name_eq_none hno
    have h2 := find?_username_eq_none hnou
    constructor <;> simp [register_company, create_company, h1, h2]
  · intro hadm
    by_cases hdup : ∃ c ∈ st.companies, c.name = companyName
    · have h1 := find?_name_isSome hdup
      constructor <;> · simp [register_company, create_company, h1]; exact hadm
    · push_neg at hdup
      have h1 := find?_name_eq_none hdup
      by_cases hdupu : ∃ u ∈ st.users, u.username = adminUsername
      · have h2 := find?_username_isSome hdupu
        constructor <;> · simp [register_company, create_company, h1, h2]; exact hadm
      · push_neg at hdupu
        have h2 := find?_username_eq_none hdupu
        constructor <;>
        · simp only [register_company, create_company, h1, h2, Option.isSome_none,
            Bool.false_eq_true, if_false]
          intro c hc
          rw [List.mem_append] at hc
          rcases hc with hc | hc
          · obtain ⟨u, hu, hcu⟩ := hadm c hc
            exact ⟨u, List.mem_append_left _ hu, hcu⟩
          · rw [List.mem_singleton] at hc
            subst hc
            refine ⟨_, List.mem_append_right _ (List.mem_singleton_self _), rfl, rfl⟩

/-- C8 witness: a duplicate-name rejection and a successful creation at
concrete stores. -/
theorem company_creation_witness :
    register_company ⟨[⟨"c9","Acme","o1",0⟩], [], [], []⟩ "Acme" "alice" "a@b" "h" "c1" "u1" 0 =
      (.error .duplicateName, ⟨[⟨"c9","Acme","o1",0⟩], [], [], []⟩) ∧
    register_company ⟨[], [], [], []⟩ "Acme" "alice" "a@b" "h" "c1" "u1" 0 =
      (.ok ("c1", "u1"),
       ⟨[⟨"c1","Acme","system",0⟩], [⟨"u1","alice","a@b","h","admin","c1",0⟩], [], []⟩) :=
  ⟨((company_creation ⟨[⟨"c9","Acme","o1",0⟩], [], [], []⟩
      "Acme" "alice" "a@b" "h" "oX" "c1" "u1" 0).1
      ⟨⟨"c9","Acme","o1",0⟩, by simp, rfl⟩).1,
   ((company_creation ⟨[], [], [], []⟩
      "Acme" "alice" "a@b" "h" "oX" "c1" "u1" 0).2.2.1
      (by simp) (by simp)).1⟩

/-- C9: deleting a company fails with not-found when the id is unknown;
otherwise it reports success and afterwards no user, employee, company row,
or time entry of any of the company's employees remains. -/
theorem delete_company_cascade (st : State) (companyId : String) :
    ((∀ c ∈ st.companies, c.id ≠ companyId) →
      delete_company st companyId = (.error .companyNotFound, st)) ∧
    ((∃ c ∈ st.companies, c.id = companyId) →
      (delete_company st companyId).1 = .ok () ∧
      (∀ u ∈ (delete_company st companyId).2.users, u.companyId ≠ companyId) ∧
      (∀ e ∈ (delete_company st companyId).2.employees, e.companyId ≠ companyId) ∧
      (∀ c ∈ (delete_company st companyId).2.companies, c.id ≠ companyId) ∧
      (∀ te ∈ (delete_company st companyId).2.timeEntries,
        ∀ e ∈ st.employees, e.companyId = companyId → te.employeeId ≠ e.id)) := by
  constructor
  · intro hno
    have h1 : (st.companies.find? fun c => c.id == companyId) = none := by
      rw [List.find?_eq_none]
      intro c hc
      simp [hno c hc]
    simp [delete_company, h1]
  · intro hex
    rcases hfind : st.companies.find? fun c => c.id == companyId with _ | c0
    · obtain ⟨c, hc, hcid⟩ := hex
      have := List.find?_eq_none.mp hfind c hc
      simp [hcid] at this
    · refine ⟨by simp [delete_company, hfind], ?_, ?_, ?_, ?_⟩
      · intro u hu
        simp only [delete_company, hfind] at hu
        have := List.of_mem_filter hu
        simpa using this
      · intro e he
        simp only [delete_company, hfind] at he
        have := List.of_mem_filter he
        simpa using this
      · intro c hc
        simp only [delete_company, hfind] at hc
        have := List.of_mem_filter hc
        simpa using this
      · intro te hte e he hecid heq
        have hidmem : e.id ∈
            ((st.employees.filter fun x => x.companyId == companyId).map Employee.id) :=
          List.mem_map_of_mem _ (List.mem_filter.mpr ⟨he, by simp [hecid]⟩)
        simp only [delete_company, hfind] at hte
        by_cases hempt :
            ((st.employees.filter fun x => x.companyId == companyId).map Employee.id).isEmpty
        · rw [List.isEmpty_iff] at hempt
          rw [hempt] at hidmem
          exact absurd hidmem (List.not_mem_nil _)
        · simp only [hempt, if_false] at hte
          have := List.of_mem_filter hte
          rw [heq] at this
          simp [hidmem] at this

/-- C9 witness: deleting a concrete company with one admin, one employee and
one time entry succeeds. -/
theorem delete_company_cascade_witness :
    (delete_company
      ⟨[⟨"c1","Acme","o",0⟩], [⟨"u1","alice","a","h","admin","c1",0⟩],
       [⟨"e1","Jan","Kowalski","w","7","q","c1",0⟩],
       [⟨"t1","e1", some 0, none, "2024-01-01", "working", some 0⟩]⟩ "c1").1 = .ok () :=
  ((delete_company_cascade
    ⟨[⟨"c1","Acme","o",0⟩], [⟨"u1","alice","a","h","admin","c1",0⟩],
     [⟨"e1","Jan","Kowalski","w","7","q","c1",0⟩],
     [⟨"t1","e1", some 0, none, "2024-01-01", "working", some 0⟩]⟩ "c1").2
    ⟨⟨"c1","Acme","o",0⟩, by simp, rfl⟩).1

/-- C10: deleting an employee id that does not belong to the caller's company
leaves the employees table (and companies and users) unchanged, still removes
every time entry with that employee id — the time-entry deletion is not
company-scoped — and reports success rather than not-found. -/
theorem delete_employee_foreign (st : State) (companyId employeeId : String)
    (hforeign : ∀ e ∈ st.employees, ¬ (e.id = employeeId ∧ e.companyId = companyId)) :
    (delete_employee st companyId employeeId).1 = "Employee deleted successfully" ∧
    (delete_employee st companyId employeeId).2.employees = st.employees ∧
    (delete_employee st companyId employeeId).2.companies = st.companies ∧
    (delete_employee st companyId employeeId).2.users = st.users ∧
    (∀ te ∈ st.timeEntries, te.employeeId = employeeId →
      te ∉ (delete_employee st companyId employeeId).2.timeEntries) ∧
    (∀ te ∈ st.timeEntries, te.employeeId ≠ employeeId →
      te ∈ (delete_employee st companyId employeeId).2.timeEntries) := by
  refine ⟨rfl, ?_, rfl, rfl, ?_, ?_⟩
  · simp only [delete_employee]
    rw [List.filter_eq_self]
    intro e he
    have := hforeign e he
    simp only [Bool.not_eq_true']
    rw [Bool.and_eq_false_iff]
    by_cases h1 : e.id = employeeId
    · right
      simp only [beq_eq_false_iff_ne, ne_eq]
      exact fun h2 => this ⟨h1, h2⟩
    · left
      simp [h1]
  · intro te hte heq hmem
    simp only [delete_employee] at hmem
    have := List.of_mem_filter hmem
    simp [heq] at this
  · intro te hte hne
    simp only [delete_employee]
    exact List.mem_filter.mpr ⟨hte, by simp [hne]⟩

/-- C10 witness: deleting another company's employee id reports success and
leaves the employees table unchanged. -/
theorem delete_employee_foreign_witness :
    (delete_employee
      ⟨[], [], [⟨"e2","Ann","B","w","9","q","c2",0⟩],
       [⟨"t1","e2", some 0, none, "2024-01-01", "working", some 0⟩]⟩ "c1" "e2").1 =
      "Employee deleted successfully" ∧
    (delete_employee
      ⟨[], [], [⟨"e2","Ann","B","w","9","q","c2",0⟩],
       [⟨"t1","e2", some 0, none, "2024-01-01", "working", some 0⟩]⟩ "c1" "e2").2.employees =
      [⟨"e2","Ann","B","w","9","q","c2",0⟩] :=
  ⟨(delete_employee_foreign
      ⟨[], [], [⟨"e2","Ann","B","w","9","q","c2",0⟩],
       [⟨"t1","e2", some 0, none, "2024-01-01", "working", some 0⟩]⟩ "c1" "e2"
      (by decide)).1,
   (delete_employee_foreign
      ⟨[], [], [⟨"e2","Ann","B","w","9","q","c2",0⟩],
       [⟨"t1","e2", some 0, none, "2024-01-01", "working", some 0⟩]⟩ "c1" "e2"
      (by decide)).2.1⟩

end TimeTracking
